import Mathlib

/-!
Shallow embedding of the record-versioning and change-log subsystem of the
`wdg_pm` repository (`src/ProjectManager.py`): the `Project` dataclass with
its mutation methods, and the `ProjectManager` store with its index,
per-record persistence, and generic dispatch.

Modelling conventions:
* A filesystem path is an `FPath` (directory, stem, extension); the set of
  files present on disk is a `Finset FPath`.  `Path.name` is `stem ++ ext`,
  `Path.suffix` is `ext`.  Directory creation (`mkdir`) does not change the
  file set, so it is a no-op here.  `shutil.move` is `fsMove`: it fails
  exactly when the source file is absent.
* Python `dict`s (insertion-ordered, update-in-place on existing keys) are
  association lists with `dictInsert` / `dictRemove` / `dictLookup`.
* `datetime.now().isoformat()` is an explicit `ts : String` argument.
* Python exceptions are `Except` results.  Because Python mutates the
  object in place, a raised exception leaves the partially-mutated object
  with the caller; fallible operations therefore return the state reached
  at the point of failure inside the `error` constructor.
* Python `int` is `Int`; `float` is `Float` (only ever the placeholder).
-/

structure FPath where
  dir : String
  stem : String
  ext : String
deriving DecidableEq, Repr

def FPath.name (p : FPath) : String := p.stem ++ p.ext

/-- `shutil.move`: fails iff the source does not exist; otherwise the source
disappears and the destination appears. -/
def fsMove (fs : Finset FPath) (src dst : FPath) : Option (Finset FPath) :=
  if src ∈ fs then some (insert dst (fs.erase src)) else none

/-- Python dict `d[k] = v`: overwrite in place if the key exists, else append. -/
def dictInsert {α : Type} (d : List (String × α)) (k : String) (v : α) :
    List (String × α) :=
  if d.any (fun kv => kv.1 = k) then
    d.map (fun kv => if kv.1 = k then (k, v) else kv)
  else d ++ [(k, v)]

/-- Python `k in d`. -/
def dictContains {α : Type} (d : List (String × α)) (k : String) : Bool :=
  d.any (fun kv => kv.1 = k)

/-- Python `del d[k]`. -/
def dictRemove {α : Type} (d : List (String × α)) (k : String) :
    List (String × α) :=
  d.filter (fun kv => kv.1 ≠ k)

/-- Python `d[k]` as an option / `d.get(k)`. -/
def dictLookup {α : Type} (d : List (String × α)) (k : String) : Option α :=
  (d.find? (fun kv => kv.1 = k)).map (fun kv => kv.2)

/-- Python `d.get(k, dflt)`. -/
def dictGetD {α : Type} (d : List (String × α)) (k : String) (dflt : α) : α :=
  (dictLookup d k).getD dflt

/-- The Python exceptions raised by the source. -/
inductive PyErr where
  | fileNotFound (msg : String)
  | valueError (msg : String)
  | keyError (msg : String)
  | ioError (msg : String)
deriving DecidableEq, Repr

/-- The `Project` dataclass of `src/ProjectManager.py` (field for field;
leading underscores of the Python names kept). -/
structure Project where
  master_id : String
  sub_id : Int
  file : FPath
  archive_directory : String
  responsible : List (String × List String)
  quantity : Int
  volume : Float
  status : String
  project_name : Option String
  customer_id : Option String
  shipping_info : Option (List (String × String))
  comments : List (String × String)
  _comment_id : Int
  change_log : List (String × String)
  _file_version : Int
  _id_change_count : Nat
  _file_change_count : Nat
  _status_change_count : Nat
  _responsible_change_count : Nat
  _quantity_change_count : Nat
  _name_change_count : Nat
  _customer_change_count : Nat
  _shipping_info_change_count : Nat
  _comment_change_count : Nat
deriving Repr

def Project.get_project_id (p : Project) : String :=
  s!"{p.master_id}_{p.sub_id}"

def Project.get_file_version (p : Project) : String :=
  s!"{p.get_project_id}_v{p._file_version}"

def Project.add_comment (p : Project) (ts comment : String) : Project :=
  let c := p._comment_change_count + 1
  let cid := p._comment_id + 1
  { p with
    _comment_change_count := c
    _comment_id := cid
    comments := dictInsert p.comments s!"comment_{cid}" s!"{ts}: {comment}"
    change_log := dictInsert p.change_log s!"Comment Change #{c}"
      s!"{ts}: comment_{cid} added" }

def Project.remove_comment (p : Project) (ts : String) (comment_id : Int) :
    Except PyErr Project :=
  let key := s!"comment_{comment_id}"
  if dictContains p.comments key then
    let c := p._comment_change_count + 1
    .ok { p with
      _comment_change_count := c
      comments := dictRemove p.comments key
      change_log := dictInsert p.change_log s!"Comment Change #{c}"
        s!"{ts}: Comment {comment_id} deleted" }
  else .error (.keyError s!"Comment {comment_id} not found")

def Project.edit_comment (p : Project) (ts : String)
    (updated_comment : String) (comment_id : Int) : Except PyErr Project :=
  let key := s!"comment_{comment_id}"
  if dictContains p.comments key then
    let c := p._comment_change_count + 1
    .ok { p with
      _comment_change_count := c
      comments := dictInsert p.comments key s!"edited {ts}: {updated_comment}"
      change_log := dictInsert p.change_log s!"Comment Change #{c}"
        s!"{ts}: Comment {comment_id} edited" }
  else .error (.keyError s!"Comment {comment_id} not found")

def Project.update_master_id (p : Project) (ts new_master_id : String) :
    Project :=
  let c := p._id_change_count + 1
  let old_project_id := p.get_project_id
  let p2 := { p with master_id := new_master_id, _id_change_count := c }
  let new_project_id := p2.get_project_id
  { p2 with
    change_log := dictInsert p2.change_log s!"Project ID Change #{c}"
      (s!"{ts}: Subproject moved under master project {new_master_id}. " ++
       s!"Project ID changed from {old_project_id} to {new_project_id}") }

/-- `Project._update_volume`: placeholder, always writes `0.0`. -/
def Project._update_volume (p : Project) : Project :=
  { p with volume := 0.0 }

/-- `Project.update_file`.  A raised exception carries the filesystem and
the record state reached when it was raised (Python mutates in place). -/
def Project.update_file (p : Project) (ts : String) (fs : Finset FPath)
    (new_file : FPath) (new_version : Bool) :
    Except (PyErr × Finset FPath × Project) (Finset FPath × Project) :=
  if new_file ∉ fs then
    .error (.fileNotFound s!"File {new_file.name} does not exist", fs, p)
  else if new_file = p.file then
    .error (.valueError "New file cannot be the same as current file", fs, p)
  else
    let p1 := { p with _file_change_count := p._file_change_count + 1 }
    if new_version then
      let archived : FPath :=
        ⟨p1.archive_directory, p1.get_file_version, p1.file.ext⟩
      match fsMove fs p1.file archived with
      | none => .error (.ioError "move failed", fs, p1)
      | some fs2 =>
        let p2 := { p1 with _file_version := p1._file_version + 1,
                            file := new_file }
        let p3 := p2._update_volume
        .ok (fs2, { p3 with
          change_log := dictInsert p3.change_log
            s!"Project File Change #{p3._file_change_count}"
            s!"{ts}: File version updated to {p3.get_file_version}, new volume {p3.volume}" })
    else
      let p2 := { p1 with file := new_file }
      let p3 := p2._update_volume
      .ok (fs, { p3 with
        change_log := dictInsert p3.change_log
          s!"Project File Change #{p3._file_change_count}"
          s!"{ts}: File updated (same version), new volume {p3.volume}" })

/-- `Project.update_file_directories`.  The archive-relocation loop moves
every file of the old archive directory into the new one, keeping names. -/
def Project.update_file_directories (p : Project) (ts : String)
    (fs : Finset FPath) (new_file_path new_archive_path : Option String) :
    Except (PyErr × Finset FPath × Project) (Finset FPath × Project) :=
  if new_file_path = none ∧ new_archive_path = none then
    .error (.valueError "Must provide at least one new path", fs, p)
  else
    let step1 : Except (PyErr × Finset FPath × Project)
        (Finset FPath × Project) :=
      match new_file_path with
      | none => .ok (fs, p)
      | some d =>
        let p1 := { p with _file_change_count := p._file_change_count + 1 }
        let target : FPath := ⟨d, p1.file.stem, p1.file.ext⟩
        match fsMove fs p1.file target with
        | none => .error (.ioError "move failed", fs, p1)
        | some fs1 =>
          .ok (fs1, { p1 with
            file := target
            change_log := dictInsert p1.change_log
              s!"Project File Change #{p1._file_change_count}"
              s!"{ts}: File directory changed to {d}" })
    match step1 with
    | .error e => .error e
    | .ok (fs1, q) =>
      match new_archive_path with
      | none => .ok (fs1, q)
      | some d =>
        let q1 := { q with _file_change_count := q._file_change_count + 1 }
        let fs2 := fs1.image
          (fun f => if f.dir = q1.archive_directory then
            (⟨d, f.stem, f.ext⟩ : FPath) else f)
        .ok (fs2, { q1 with
          archive_directory := d
          change_log := dictInsert q1.change_log
            s!"Project File Change #{q1._file_change_count}"
            s!"{ts}: Archive directory changed to {d}" })

def Project.update_status (p : Project) (ts new_status : String) : Project :=
  let c := p._status_change_count + 1
  { p with
    _status_change_count := c
    status := new_status
    change_log := dictInsert p.change_log s!"Status Change #{c}"
      s!"{ts} Status changed to {new_status}" }

def Project.update_responsible (p : Project) (ts responsible_type : String)
    (responsible : List String) : Project :=
  let c := p._responsible_change_count + 1
  { p with
    _responsible_change_count := c
    responsible := dictInsert p.responsible responsible_type responsible
    change_log := dictInsert p.change_log s!"Responsible Change #{c}"
      s!"{ts}: {responsible_type} updated to {responsible}" }

def Project.update_quantity (p : Project) (ts : String) (new_quantity : Int) :
    Project :=
  let c := p._quantity_change_count + 1
  { p with
    _quantity_change_count := c
    quantity := new_quantity
    change_log := dictInsert p.change_log s!"Quantity Change #{c}"
      s!"{ts}: Quantity updated to {new_quantity}" }

def Project.update_name (p : Project) (ts new_name : String) : Project :=
  let c := p._name_change_count + 1
  { p with
    _name_change_count := c
    project_name := some new_name
    change_log := dictInsert p.change_log s!"Name Change #{c}"
      s!"{ts} Project name updated to {new_name}" }

def Project.update_customer_id (p : Project) (ts new_customer_id : String) :
    Project :=
  let c := p._customer_change_count + 1
  { p with
    _customer_change_count := c
    customer_id := some new_customer_id
    change_log := dictInsert p.change_log s!"Customer ID Change #{c}"
      s!"{ts} Project customer updated to {new_customer_id}" }

def Project.update_shipping_info (p : Project) (ts : String)
    (new_shipping_info : List (String × String)) : Project :=
  let c := p._shipping_info_change_count + 1
  let post_code := dictGetD new_shipping_info "Post Code" "Unknown"
  { p with
    _shipping_info_change_count := c
    shipping_info := some new_shipping_info
    change_log := dictInsert p.change_log s!"Shipping Info Change #{c}"
      s!"{ts} Shipping info updated to {post_code}" }

/-- One call to one of the twelve mutation operations of `Project`, with its
timestamp and arguments. -/
inductive POp where
  | add_comment (ts comment : String)
  | remove_comment (ts : String) (comment_id : Int)
  | edit_comment (ts updated_comment : String) (comment_id : Int)
  | update_master_id (ts new_master_id : String)
  | update_file (ts : String) (new_file : FPath) (new_version : Bool)
  | update_file_directories (ts : String)
      (new_file_path new_archive_path : Option String)
  | update_status (ts new_status : String)
  | update_responsible (ts responsible_type : String)
      (responsible : List String)
  | update_quantity (ts : String) (new_quantity : Int)
  | update_name (ts new_name : String)
  | update_customer_id (ts new_customer_id : String)
  | update_shipping_info (ts : String)
      (new_shipping_info : List (String × String))
deriving Repr

/-- Apply one mutation call; an exception carries the state reached at the
point where it was raised. -/
def applyOp (op : POp) (fs : Finset FPath) (p : Project) :
    Except (PyErr × Finset FPath × Project) (Finset FPath × Project) :=
  match op with
  | .add_comment ts comment => .ok (fs, p.add_comment ts comment)
  | .remove_comment ts comment_id =>
    match p.remove_comment ts comment_id with
    | .ok p2 => .ok (fs, p2)
    | .error e => .error (e, fs, p)
  | .edit_comment ts updated_comment comment_id =>
    match p.edit_comment ts updated_comment comment_id with
    | .ok p2 => .ok (fs, p2)
    | .error e => .error (e, fs, p)
  | .update_master_id ts new_master_id =>
    .ok (fs, p.update_master_id ts new_master_id)
  | .update_file ts new_file new_version =>
    p.update_file ts fs new_file new_version
  | .update_file_directories ts new_file_path new_archive_path =>
    p.update_file_directories ts fs new_file_path new_archive_path
  | .update_status ts new_status => .ok (fs, p.update_status ts new_status)
  | .update_responsible ts responsible_type responsible =>
    .ok (fs, p.update_responsible ts responsible_type responsible)
  | .update_quantity ts new_quantity =>
    .ok (fs, p.update_quantity ts new_quantity)
  | .update_name ts new_name => .ok (fs, p.update_name ts new_name)
  | .update_customer_id ts new_customer_id =>
    .ok (fs, p.update_customer_id ts new_customer_id)
  | .update_shipping_info ts new_shipping_info =>
    .ok (fs, p.update_shipping_info ts new_shipping_info)

/-- Run one call the way the store's caller does (any exception is caught,
the in-memory record keeps the state it had reached). -/
def stepOp (op : POp) (s : Finset FPath × Project) : Finset FPath × Project :=
  match applyOp op s.1 s.2 with
  | .ok r => r
  | .error (_, fs2, p2) => (fs2, p2)

/-- Run a sequence of calls. -/
def runOps (ops : List POp) (s : Finset FPath × Project) :
    Finset FPath × Project :=
  ops.foldl (fun st op => stepOp op st) s

/-- The nine change-log categories, one counter each. -/
inductive Category where
  | comment | id | fileC | statusC | responsibleC | quantityC
  | nameC | customer | shipping
deriving DecidableEq, Repr

def counterOf (c : Category) (p : Project) : Nat :=
  match c with
  | .comment => p._comment_change_count
  | .id => p._id_change_count
  | .fileC => p._file_change_count
  | .statusC => p._status_change_count
  | .responsibleC => p._responsible_change_count
  | .quantityC => p._quantity_change_count
  | .nameC => p._name_change_count
  | .customer => p._customer_change_count
  | .shipping => p._shipping_info_change_count

def opCategory (op : POp) : Category :=
  match op with
  | .add_comment .. | .remove_comment .. | .edit_comment .. => .comment
  | .update_master_id .. => .id
  | .update_file .. | .update_file_directories .. => .fileC
  | .update_status .. => .statusC
  | .update_responsible .. => .responsibleC
  | .update_quantity .. => .quantityC
  | .update_name .. => .nameC
  | .update_customer_id .. => .customer
  | .update_shipping_info .. => .shipping

/-- The change-log key of each category, `"<Category> Change #<n>"`,
spelled exactly as the source spells it. -/
def categoryKey (c : Category) (n : Nat) : String :=
  match c with
  | .comment => s!"Comment Change #{n}"
  | .id => s!"Project ID Change #{n}"
  | .fileC => s!"Project File Change #{n}"
  | .statusC => s!"Status Change #{n}"
  | .responsibleC => s!"Responsible Change #{n}"
  | .quantityC => s!"Quantity Change #{n}"
  | .nameC => s!"Name Change #{n}"
  | .customer => s!"Customer ID Change #{n}"
  | .shipping => s!"Shipping Info Change #{n}"

/-- How much a successful call increments its own category counter:
always 1, except `update_file_directories`, which increments once per
directory argument provided. -/
def opIncrement (op : POp) : Nat :=
  match op with
  | .update_file_directories _ new_file_path new_archive_path =>
    (if new_file_path.isSome then 1 else 0) +
    (if new_archive_path.isSome then 1 else 0)
  | _ => 1

/-- The log keys a successful call is expected to append: one per counter
increment, numbered consecutively from the old counter value. -/
def expectedKeys (c : Category) (oldCount incr : Nat) : List String :=
  (List.range incr).map (fun i => categoryKey c (oldCount + 1 + i))

/-- A Python value handed to the store's generic `update_project` dispatch
(the `info` argument), or stored in an info snapshot. -/
inductive PyVal where
  | str (s : String)
  | int (n : Int)
  | boolv (b : Bool)
  | noneV
  | path (fp : FPath)
  | strList (l : List String)
  | strDict (d : List (String × String))
deriving DecidableEq, Repr

/-- The shape of the `info` argument of `ProjectManager.update_project`:
a dict is splatted as keyword arguments, a list/tuple positionally, and
anything else is passed as the single positional argument. -/
inductive Info where
  | dict (kvs : List (String × PyVal))
  | listv (vs : List PyVal)
  | scalar (v : PyVal)
deriving Repr

/-- The callable attributes of the `Project` class, i.e. every name for
which `getattr(project, action)` yields a callable: all methods, the
read-only and private ones included.  A name outside this list is either
absent or a plain data field, and both take the same error path in
`update_project`. -/
inductive PMethod where
  | get_project_id | get_file_version | add_comment | remove_comment
  | edit_comment | update_master_id | update_file | update_file_directories
  | update_status | update_responsible | update_volume_m | update_quantity
  | update_name | update_customer_id | update_shipping_info
  | print_comments | print_change_log | get_info | print_info
deriving DecidableEq, Repr

def lookupMethod (action : String) : Option PMethod :=
  match action with
  | "get_project_id" => some .get_project_id
  | "get_file_version" => some .get_file_version
  | "add_comment" => some .add_comment
  | "remove_comment" => some .remove_comment
  | "edit_comment" => some .edit_comment
  | "update_master_id" => some .update_master_id
  | "update_file" => some .update_file
  | "update_file_directories" => some .update_file_directories
  | "update_status" => some .update_status
  | "update_responsible" => some .update_responsible
  | "_update_volume" => some .update_volume_m
  | "update_quantity" => some .update_quantity
  | "update_name" => some .update_name
  | "update_customer_id" => some .update_customer_id
  | "update_shipping_info" => some .update_shipping_info
  | "print_comments" => some .print_comments
  | "print_change_log" => some .print_change_log
  | "get_info" => some .get_info
  | "print_info" => some .print_info
  | _ => none

/-- `Project.get_info`: the read-only snapshot dictionary. -/
def Project.get_info (p : Project) : List (String × PyVal) :=
  [("Project ID", .str p.get_project_id),
   ("Project Name", match p.project_name with
     | some s => .str s
     | none => .noneV),
   ("Customer ID", match p.customer_id with
     | some s => .str s
     | none => .noneV),
   ("Status", .str p.status),
   ("Quantity", .int p.quantity),
   ("File", .path p.file),
   ("Archive Directory", .str p.archive_directory),
   ("Shipping Info", match p.shipping_info with
     | some d => .strDict d
     | none => .noneV)]

/-- Bind a single-parameter call shape (`method(info)`, `method(*[v])` or
`method(**{param: v})`) to the one declared parameter. -/
def bindOne (info : Info) (param : String) : Option PyVal :=
  match info with
  | .scalar v => some v
  | .listv [v] => some v
  | .dict [(k, v)] => if k = param then some v else none
  | _ => none

/-- Bind a two-parameter call shape: positionally in declaration order, or
by keyword in either order. -/
def bindTwo (info : Info) (param1 param2 : String) :
    Option (PyVal × PyVal) :=
  match info with
  | .listv [v1, v2] => some (v1, v2)
  | .dict [(k1, v1), (k2, v2)] =>
    if k1 = param1 ∧ k2 = param2 then some (v1, v2)
    else if k1 = param2 ∧ k2 = param1 then some (v2, v1)
    else none
  | _ => none

/-- Bind `update_file`'s `(new_file, new_version=False)` parameters. -/
def bindUpdateFile (info : Info) : Option (PyVal × Bool) :=
  match info with
  | .scalar v => some (v, false)
  | .listv [v] => some (v, false)
  | .listv [v, .boolv b] => some (v, b)
  | .dict [("new_file", v)] => some (v, false)
  | .dict [("new_file", v), ("new_version", .boolv b)] => some (v, b)
  | .dict [("new_version", .boolv b), ("new_file", v)] => some (v, b)
  | _ => none

/-- Bind `update_file_directories`'s two optional string parameters. -/
def bindUpdateDirs (info : Info) : Option (Option String × Option String) :=
  match info with
  | .scalar (.str s) => some (some s, none)
  | .scalar .noneV => some (none, none)
  | .listv [] => some (none, none)
  | .listv [.str s] => some (some s, none)
  | .listv [.str s, .str t] => some (some s, some t)
  | .dict [] => some (none, none)
  | .dict [("new_file_path", .str s)] => some (some s, none)
  | .dict [("new_archive_path", .str t)] => some (none, some t)
  | .dict [("new_file_path", .str s), ("new_archive_path", .str t)] =>
    some (some s, some t)
  | .dict [("new_archive_path", .str t), ("new_file_path", .str s)] =>
    some (some s, some t)
  | _ => none

/-- `method(*args)` / `method(**kwargs)` / `method(info)`: bind the
arguments to the named method's declared parameters and run it.  A binding
mismatch is Python's `TypeError`; both it and any exception the method
itself raises land in `Except.error`, which `update_project` catches. -/
def callMethod (m : PMethod) (info : Info) (ts : String)
    (fs : Finset FPath) (p : Project) :
    Except String (Finset FPath × Project) :=
  match m with
  | .get_project_id | .get_file_version | .print_comments
  | .print_change_log | .get_info | .update_volume_m =>
    match info with
    | .listv [] => .ok (fs, if m = .update_volume_m then p._update_volume else p)
    | .dict [] => .ok (fs, if m = .update_volume_m then p._update_volume else p)
    | _ => .error "TypeError: unexpected arguments"
  | .print_info =>
    match info with
    | .listv [] => .ok (fs, p)
    | .dict [] => .ok (fs, p)
    | .scalar (.boolv _) => .ok (fs, p)
    | .listv [.boolv _] => .ok (fs, p)
    | .listv [.boolv _, .boolv _] => .ok (fs, p)
    | .dict [("comment", .boolv _)] => .ok (fs, p)
    | .dict [("change_log", .boolv _)] => .ok (fs, p)
    | _ => .error "TypeError: unexpected arguments"
  | .add_comment =>
    match bindOne info "comment" with
    | some (.str s) => .ok (fs, p.add_comment ts s)
    | _ => .error "TypeError: unexpected arguments"
  | .remove_comment =>
    match bindOne info "comment_id" with
    | some (.int n) =>
      match p.remove_comment ts n with
      | .ok p2 => .ok (fs, p2)
      | .error _ => .error s!"Comment {n} not found"
    | _ => .error "TypeError: unexpected arguments"
  | .edit_comment =>
    match bindTwo info "updated_comment" "comment_id" with
    | some (.str s, .int n) =>
      match p.edit_comment ts s n with
      | .ok p2 => .ok (fs, p2)
      | .error _ => .error s!"Comment {n} not found"
    | _ => .error "TypeError: unexpected arguments"
  | .update_master_id =>
    match bindOne info "new_master_id" with
    | some (.str s) => .ok (fs, p.update_master_id ts s)
    | _ => .error "TypeError: unexpected arguments"
  | .update_file =>
    match bindUpdateFile info with
    | some (.path fp, b) =>
      match p.update_file ts fs fp b with
      | .ok r => .ok r
      | .error _ => .error "update_file raised"
    | _ => .error "TypeError: unexpected arguments"
  | .update_file_directories =>
    match bindUpdateDirs info with
    | some (nf, na) =>
      match p.update_file_directories ts fs nf na with
      | .ok r => .ok r
      | .error _ => .error "update_file_directories raised"
    | _ => .error "TypeError: unexpected arguments"
  | .update_status =>
    match bindOne info "new_status" with
    | some (.str s) => .ok (fs, p.update_status ts s)
    | _ => .error "TypeError: unexpected arguments"
  | .update_responsible =>
    match bindTwo info "responsible_type" "responsible" with
    | some (.str s, .strList l) => .ok (fs, p.update_responsible ts s l)
    | _ => .error "TypeError: unexpected arguments"
  | .update_quantity =>
    match bindOne info "new_quantity" with
    | some (.int n) => .ok (fs, p.update_quantity ts n)
    | _ => .error "TypeError: unexpected arguments"
  | .update_name =>
    match bindOne info "new_name" with
    | some (.str s) => .ok (fs, p.update_name ts s)
    | _ => .error "TypeError: unexpected arguments"
  | .update_customer_id =>
    match bindOne info "new_customer_id" with
    | some (.str s) => .ok (fs, p.update_customer_id ts s)
    | _ => .error "TypeError: unexpected arguments"
  | .update_shipping_info =>
    match bindOne info "new_shipping_info" with
    | some (.strDict d) => .ok (fs, p.update_shipping_info ts d)
    | _ => .error "TypeError: unexpected arguments"

/-- The Python `Project(...)` constructor call as `create_project` makes it:
required fields from the arguments, everything else dataclass defaults. -/
def Project.make (master_id : String) (sub_id : Int) (file : FPath)
    (archive_directory : String) (responsible : List (String × List String))
    (quantity : Int) : Project :=
  { master_id := master_id
    sub_id := sub_id
    file := file
    archive_directory := archive_directory
    responsible := responsible
    quantity := quantity
    volume := 0.0
    status := "Created"
    project_name := none
    customer_id := none
    shipping_info := none
    comments := []
    _comment_id := 0
    change_log := []
    _file_version := 1
    _id_change_count := 0
    _file_change_count := 0
    _status_change_count := 0
    _responsible_change_count := 0
    _quantity_change_count := 0
    _name_change_count := 0
    _customer_change_count := 0
    _shipping_info_change_count := 0
    _comment_change_count := 0 }

/-- One row of the store's index: storage filename and cached status. -/
structure IndexEntry where
  filename : String
  status : String
deriving DecidableEq, Repr

/-- Deterministic storage filename for a project id.  The source derives it
with a stable hash (`md5(project_id).hexdigest() + ".pkl"`); any injective
deterministic derivation is equivalent for the store's behaviour, so the
model keeps the id readable. -/
def hashName (project_id : String) : String := project_id ++ ".pkl"

/-- The `ProjectManager` store.  `disk` maps a storage filename to the
serialized record it holds (`none` models a corrupt/unreadable blob);
`persisted_index` is the content of the on-disk index file, `none` when it
has not been written yet. -/
structure Manager where
  index : List (String × IndexEntry)
  disk : List (String × Option Project)
  persisted_index : Option (List (String × IndexEntry))
deriving Repr

/-- `ProjectManager._update_index`: atomically replace the index file with
the in-memory table. -/
def Manager.update_index (m : Manager) : Manager :=
  { m with persisted_index := some m.index }

/-- `ProjectManager._get_project`: `none` (with a reported message, no
exception) when the id is unknown to the index, when the record file is
missing, or when deserializing it fails. -/
def Manager.get_project (m : Manager) (project_id : String) :
    Option Project :=
  match dictLookup m.index project_id with
  | none => none
  | some entry =>
    match dictLookup m.disk entry.filename with
    | some (some p) => some p
    | some none => none
    | none => none

/-- `ProjectManager.create_project`. -/
def Manager.create_project (m : Manager) (master_id : String) (sub_id : Int)
    (file : FPath) (archive_directory : String)
    (responsible : List (String × List String)) (quantity : Int) :
    Manager × List String :=
  let project : Project :=
    Project.make master_id sub_id file archive_directory responsible quantity
  let project_id := project.get_project_id
  if dictContains m.index project_id then
    (m, [s!"[ERROR] Cannot create duplicate project: {project_id} already exists."])
  else
    let filename := hashName project_id
    let idx := dictInsert m.index project_id ⟨filename, "Created"⟩
    let idx := dictInsert idx project_id ⟨filename, project.status⟩
    let m1 : Manager :=
      { index := idx
        disk := dictInsert m.disk filename (some project)
        persisted_index := some idx }
    (m1, [s!"[INFO] Project {project_id} created and saved successfully."])

/-- `projects_index.loc[project_id, "status"] = status`: refresh the cached
status column of one index row. -/
def refreshStatus (idx : List (String × IndexEntry)) (pid status : String) :
    List (String × IndexEntry) :=
  idx.map (fun kv => if kv.1 = pid then
    (kv.1, { kv.2 with status := status }) else kv)

/-- `ProjectManager.update_project`: the store's generic mutate operation.
Returns the filesystem, the store, and the printed messages. -/
def Manager.update_project (m : Manager) (ts : String) (fs : Finset FPath)
    (project_id action : String) (info : Info) :
    Finset FPath × Manager × List String :=
  match m.get_project project_id with
  | none =>
    (fs, m, [s!"[ERROR] Project {project_id} could not be loaded."])
  | some project =>
    match lookupMethod action with
    | none =>
      (fs, m, [s!"[ERROR] Action {action} not valid for Project."])
    | some meth =>
      match callMethod meth info ts fs project with
      | .error e =>
        (fs, m, [s!"[ERROR] Failed to apply {action} to {project_id}: {e}"])
      | .ok (fs2, p2) =>
        let idx := refreshStatus m.index project_id p2.status
        let filename := ((dictLookup idx project_id).map
          (fun e => e.filename)).getD (hashName project_id)
        let m1 : Manager :=
          { index := idx
            disk := dictInsert m.disk filename (some p2)
            persisted_index := some idx }
        (fs2, m1, [s!"[INFO] Project {project_id} updated successfully via {action}."])

/-- `ProjectManager.get_project_info`: fetches the record and calls
`get_info()` on it with no guard, so an absent record raises
(`AttributeError` on `None`). -/
def Manager.get_project_info (m : Manager) (project_id : String) :
    Except String (List (String × PyVal)) :=
  match m.get_project project_id with
  | some p => .ok p.get_info
  | none => .error "AttributeError: NoneType object has no attribute get_info"

lemma dictInsert_fresh {α : Type} (d : List (String × α)) (k : String) (v : α)
    (h : dictContains d k = false) : dictInsert d k v = d ++ [(k, v)] := by
  unfold dictInsert
  unfold dictContains at h
  rw [if_neg (by simp [h])]

lemma update_file_notfound (p : Project) (ts : String) (fs : Finset FPath)
    (f : FPath) (nv : Bool) (h : f ∉ fs) :
    p.update_file ts fs f nv =
      .error (.fileNotFound s!"File {f.name} does not exist", fs, p) := by
  simp [Project.update_file, h]

lemma update_file_samefile (p : Project) (ts : String) (fs : Finset FPath)
    (nv : Bool) (h1 : p.file ∈ fs) :
    p.update_file ts fs p.file nv =
      .error (.valueError "New file cannot be the same as current file", fs, p) := by
  simp [Project.update_file, h1]

lemma update_file_move_failed (p : Project) (ts : String) (fs : Finset FPath)
    (f : FPath) (h1 : f ∈ fs) (h2 : f ≠ p.file) (h3 : p.file ∉ fs) :
    p.update_file ts fs f true =
      .error (.ioError "move failed", fs,
        { p with _file_change_count := p._file_change_count + 1 }) := by
  simp [Project.update_file, h1, h2, fsMove, h3]

lemma update_file_true_ok (p : Project) (ts : String) (fs : Finset FPath)
    (f : FPath) (fs2 : Finset FPath) (p2 : Project)
    (hok : p.update_file ts fs f true = .ok (fs2, p2)) :
    f ∈ fs ∧ f ≠ p.file ∧ p.file ∈ fs ∧
    fs2 = insert (⟨p.archive_directory, p.get_file_version, p.file.ext⟩ : FPath)
      (fs.erase p.file) ∧
    ∃ msg, p2 = { p with
      _file_change_count := p._file_change_count + 1
      _file_version := p._file_version + 1
      file := f
      volume := 0.0
      change_log := dictInsert p.change_log
        s!"Project File Change #{p._file_change_count + 1}" msg } := by
  by_cases h1 : f ∈ fs
  case neg => rw [update_file_notfound p ts fs f true h1] at hok; simp at hok
  by_cases h2 : f = p.file
  case pos => subst h2; rw [update_file_samefile p ts fs true h1] at hok; simp at hok
  by_cases h3 : p.file ∈ fs
  case neg => rw [update_file_move_failed p ts fs f h1 h2 h3] at hok; simp at hok
  simp only [Project.update_file] at hok
  rw [if_neg (not_not_intro h1), if_neg h2] at hok
  simp only [fsMove] at hok
  rw [if_pos h3] at hok
  simp only [if_true] at hok
  simp only [Except.ok.injEq, Prod.mk.injEq] at hok
  obtain ⟨hfs, hp⟩ := hok
  subst hfs
  subst hp
  exact ⟨h1, h2, h3, rfl, ⟨_, rfl⟩⟩

lemma update_file_false_ok (p : Project) (ts : String) (fs : Finset FPath)
    (f : FPath) (fs2 : Finset FPath) (p2 : Project)
    (hok : p.update_file ts fs f false = .ok (fs2, p2)) :
    f ∈ fs ∧ f ≠ p.file ∧ fs2 = fs ∧
    ∃ msg, p2 = { p with
      _file_change_count := p._file_change_count + 1
      file := f
      volume := 0.0
      change_log := dictInsert p.change_log
        s!"Project File Change #{p._file_change_count + 1}" msg } := by
  by_cases h1 : f ∈ fs
  case neg => rw [update_file_notfound p ts fs f false h1] at hok; simp at hok
  by_cases h2 : f = p.file
  case pos => subst h2; rw [update_file_samefile p ts fs false h1] at hok; simp at hok
  simp only [Project.update_file] at hok
  rw [if_neg (not_not_intro h1), if_neg h2] at hok
  simp only [Bool.false_eq_true, if_false] at hok
  simp only [Except.ok.injEq, Prod.mk.injEq] at hok
  obtain ⟨hfs, hp⟩ := hok
  subst hfs
  subst hp
  exact ⟨h1, h2, rfl, ⟨_, rfl⟩⟩

lemma update_dirs_none_none (p : Project) (ts : String) (fs : Finset FPath) :
    p.update_file_directories ts fs none none =
      .error (.valueError "Must provide at least one new path", fs, p) := by
  simp [Project.update_file_directories]

lemma update_dirs_file_ok (p : Project) (ts : String) (fs : Finset FPath)
    (d : String) (fs2 : Finset FPath) (p2 : Project)
    (hok : p.update_file_directories ts fs (some d) none = .ok (fs2, p2)) :
    p.file ∈ fs ∧
    fs2 = insert (⟨d, p.file.stem, p.file.ext⟩ : FPath) (fs.erase p.file) ∧
    p2 = { p with
      _file_change_count := p._file_change_count + 1
      file := ⟨d, p.file.stem, p.file.ext⟩
      change_log := dictInsert p.change_log
        s!"Project File Change #{p._file_change_count + 1}"
        s!"{ts}: File directory changed to {d}" } := by
  by_cases h3 : p.file ∈ fs
  case neg =>
    simp only [Project.update_file_directories] at hok
    rw [if_neg (by simp)] at hok
    simp only [fsMove] at hok
    rw [if_neg h3] at hok
    simp at hok
  simp only [Project.update_file_directories] at hok
  rw [if_neg (by simp)] at hok
  simp only [fsMove] at hok
  rw [if_pos h3] at hok
  simp only [Except.ok.injEq, Prod.mk.injEq] at hok
  obtain ⟨hfs, hp⟩ := hok
  subst hfs
  subst hp
  exact ⟨h3, rfl, rfl⟩

lemma update_dirs_archive_ok (p : Project) (ts : String) (fs : Finset FPath)
    (a : String) (fs2 : Finset FPath) (p2 : Project)
    (hok : p.update_file_directories ts fs none (some a) = .ok (fs2, p2)) :
    fs2 = fs.image (fun f => if f.dir = p.archive_directory then
      (⟨a, f.stem, f.ext⟩ : FPath) else f) ∧
    p2 = { p with
      _file_change_count := p._file_change_count + 1
      archive_directory := a
      change_log := dictInsert p.change_log
        s!"Project File Change #{p._file_change_count + 1}"
        s!"{ts}: Archive directory changed to {a}" } := by
  simp only [Project.update_file_directories] at hok
  rw [if_neg (by simp)] at hok
  simp only [Except.ok.injEq, Prod.mk.injEq] at hok
  obtain ⟨hfs, hp⟩ := hok
  subst hfs
  subst hp
  exact ⟨rfl, rfl⟩

lemma update_dirs_both_ok (p : Project) (ts : String) (fs : Finset FPath)
    (d a : String) (fs2 : Finset FPath) (p2 : Project)
    (hok : p.update_file_directories ts fs (some d) (some a) = .ok (fs2, p2)) :
    p.file ∈ fs ∧
    p2 = { p with
      _file_change_count := p._file_change_count + 2
      file := ⟨d, p.file.stem, p.file.ext⟩
      archive_directory := a
      change_log := dictInsert (dictInsert p.change_log
          s!"Project File Change #{p._file_change_count + 1}"
          s!"{ts}: File directory changed to {d}")
        s!"Project File Change #{p._file_change_count + 2}"
        s!"{ts}: Archive directory changed to {a}" } := by
  by_cases h3 : p.file ∈ fs
  case neg =>
    simp only [Project.update_file_directories] at hok
    rw [if_neg (by simp)] at hok
    simp only [fsMove] at hok
    rw [if_neg h3] at hok
    simp at hok
  simp only [Project.update_file_directories] at hok
  rw [if_neg (by simp)] at hok
  simp only [fsMove] at hok
  rw [if_pos h3] at hok
  simp only [Except.ok.injEq, Prod.mk.injEq] at hok
  obtain ⟨hfs, hp⟩ := hok
  subst hp
  exact ⟨h3, rfl⟩

lemma remove_comment_ok (p : Project) (ts : String) (cid : Int) (p2 : Project)
    (hok : p.remove_comment ts cid = .ok p2) :
    dictContains p.comments s!"comment_{cid}" = true ∧
    p2 = { p with
      _comment_change_count := p._comment_change_count + 1
      comments := dictRemove p.comments s!"comment_{cid}"
      change_log := dictInsert p.change_log
        s!"Comment Change #{p._comment_change_count + 1}"
        s!"{ts}: Comment {cid} deleted" } := by
  by_cases h : dictContains p.comments s!"comment_{cid}" = true
  case neg =>
    simp only [Project.remove_comment] at hok
    rw [if_neg h] at hok
    simp at hok
  simp only [Project.remove_comment] at hok
  rw [if_pos h] at hok
  simp only [Except.ok.injEq] at hok
  subst hok
  exact ⟨h, rfl⟩

lemma edit_comment_ok (p : Project) (ts uc : String) (cid : Int) (p2 : Project)
    (hok : p.edit_comment ts uc cid = .ok p2) :
    dictContains p.comments s!"comment_{cid}" = true ∧
    p2 = { p with
      _comment_change_count := p._comment_change_count + 1
      comments := dictInsert p.comments s!"comment_{cid}" s!"edited {ts}: {uc}"
      change_log := dictInsert p.change_log
        s!"Comment Change #{p._comment_change_count + 1}"
        s!"{ts}: Comment {cid} edited" } := by
  by_cases h : dictContains p.comments s!"comment_{cid}" = true
  case neg =>
    simp only [Project.edit_comment] at hok
    rw [if_neg h] at hok
    simp at hok
  simp only [Project.edit_comment] at hok
  rw [if_pos h] at hok
  simp only [Except.ok.injEq] at hok
  subst hok
  exact ⟨h, rfl⟩

lemma append_one_log (d : List (String × String)) (k v : String)
    (h : dictContains d k = false) :
    ∃ tail, dictInsert d k v = d ++ tail ∧ tail.map Prod.fst = [k] :=
  ⟨[(k, v)], dictInsert_fresh d k v h, rfl⟩

lemma append_two_log (d : List (String × String)) (k1 v1 k2 v2 : String)
    (h1 : dictContains d k1 = false) (h2 : dictContains d k2 = false)
    (hne : k1 ≠ k2) :
    ∃ tail, dictInsert (dictInsert d k1 v1) k2 v2 = d ++ tail ∧
      tail.map Prod.fst = [k1, k2] := by
  refine ⟨[(k1, v1), (k2, v2)], ?_, rfl⟩
  rw [dictInsert_fresh d k1 v1 h1, dictInsert_fresh _ k2 v2 ?_]
  · simp
  · unfold dictContains at h2 ⊢
    simp only [List.any_append, h2, Bool.false_or, List.any_cons, List.any_nil]
    simp [hne]

lemma expectedKeys_one (c : Category) (n : Nat) :
    expectedKeys c n 1 = [categoryKey c (n + 1)] := by
  have h1 : List.range 1 = [0] := by decide
  simp [expectedKeys, h1]

lemma expectedKeys_two (c : Category) (n : Nat) :
    expectedKeys c n 2 = [categoryKey c (n + 1), categoryKey c (n + 2)] := by
  have h2 : List.range 2 = [0, 1] := by decide
  have h3 : n + 1 + 1 = n + 2 := by omega
  simp [expectedKeys, h2, h3]

theorem mutation_counter_log_discipline (op : POp) (fs : Finset FPath)
    (p : Project) (fs2 : Finset FPath) (p2 : Project)
    (hok : applyOp op fs p = .ok (fs2, p2))
    (hfresh : ∀ k ∈ expectedKeys (opCategory op)
      (counterOf (opCategory op) p) (opIncrement op),
      dictContains p.change_log k = false)
    (hnd : (expectedKeys (opCategory op)
      (counterOf (opCategory op) p) (opIncrement op)).Nodup) :
    (∀ c : Category, counterOf c p2 =
      counterOf c p + if c = opCategory op then opIncrement op else 0) ∧
    ∃ tail, p2.change_log = p.change_log ++ tail ∧
      tail.map Prod.fst = expectedKeys (opCategory op)
        (counterOf (opCategory op) p) (opIncrement op) := by
  cases op with
  | add_comment ts comment =>
    simp only [applyOp] at hok
    simp only [Except.ok.injEq, Prod.mk.injEq] at hok
    obtain ⟨hfs, hp⟩ := hok
    subst hp
    simp only [opCategory, counterOf, opIncrement] at hfresh ⊢
    rw [expectedKeys_one] at hfresh ⊢
    refine ⟨?_, ?_⟩
    · intro c; cases c <;> simp [counterOf, Project.add_comment, opCategory]
    · exact append_one_log _ _ _ (hfresh _ (by simp [categoryKey]))
  | remove_comment ts cid =>
    simp only [applyOp] at hok
    cases hrc : p.remove_comment ts cid with
    | error e => rw [hrc] at hok; simp at hok
    | ok pr =>
      rw [hrc] at hok
      simp only [Except.ok.injEq, Prod.mk.injEq] at hok
      obtain ⟨hfs, hp⟩ := hok
      subst hp
      obtain ⟨hc, hstruct⟩ := remove_comment_ok p ts cid pr hrc
      subst hstruct
      simp only [opCategory, counterOf, opIncrement] at hfresh ⊢
      rw [expectedKeys_one] at hfresh ⊢
      refine ⟨?_, ?_⟩
      · intro c; cases c <;> simp [counterOf, opCategory]
      · exact append_one_log _ _ _ (hfresh _ (by simp [categoryKey]))
  | edit_comment ts uc cid =>
    simp only [applyOp] at hok
    cases hrc : p.edit_comment ts uc cid with
    | error e => rw [hrc] at hok; simp at hok
    | ok pr =>
      rw [hrc] at hok
      simp only [Except.ok.injEq, Prod.mk.injEq] at hok
      obtain ⟨hfs, hp⟩ := hok
      subst hp
      obtain ⟨hc, hstruct⟩ := edit_comment_ok p ts uc cid pr hrc
      subst hstruct
      simp only [opCategory, counterOf, opIncrement] at hfresh ⊢
      rw [expectedKeys_one] at hfresh ⊢
      refine ⟨?_, ?_⟩
      · intro c; cases c <;> simp [counterOf, opCategory]
      · exact append_one_log _ _ _ (hfresh _ (by simp [categoryKey]))
  | update_master_id ts mid =>
    simp only [applyOp] at hok
    simp only [Except.ok.injEq, Prod.mk.injEq] at hok
    obtain ⟨hfs, hp⟩ := hok
    subst hp
    simp only [opCategory, counterOf, opIncrement] at hfresh ⊢
    rw [expectedKeys_one] at hfresh ⊢
    refine ⟨?_, ?_⟩
    · intro c; cases c <;> simp [counterOf, Project.update_master_id, opCategory]
    · exact append_one_log _ _ _ (hfresh _ (by simp [categoryKey]))
  | update_file ts f nv =>
    simp only [applyOp] at hok
    simp only [opCategory, counterOf, opIncrement] at hfresh ⊢
    rw [expectedKeys_one] at hfresh ⊢
    cases nv with
    | true =>
      obtain ⟨h1, h2, h3, hfs, msg, hp⟩ := update_file_true_ok p ts fs f fs2 p2 hok
      subst hp
      refine ⟨?_, ?_⟩
      · intro c; cases c <;> simp [counterOf, opCategory]
      · exact append_one_log _ _ _ (hfresh _ (by simp [categoryKey]))
    | false =>
      obtain ⟨h1, h2, hfs, msg, hp⟩ := update_file_false_ok p ts fs f fs2 p2 hok
      subst hp
      refine ⟨?_, ?_⟩
      · intro c; cases c <;> simp [counterOf, opCategory]
      · exact append_one_log _ _ _ (hfresh _ (by simp [categoryKey]))
  | update_file_directories ts nf na =>
    simp only [applyOp] at hok
    cases nf with
    | none =>
      cases na with
      | none =>
        rw [update_dirs_none_none p ts fs] at hok
        simp at hok
      | some a =>
        obtain ⟨hfs, hp⟩ := update_dirs_archive_ok p ts fs a fs2 p2 hok
        subst hp
        simp only [opCategory, counterOf, opIncrement,
          Option.isSome_none, Option.isSome_some, if_true,
          Bool.false_eq_true, if_false, Nat.zero_add] at hfresh ⊢
        rw [expectedKeys_one] at hfresh ⊢
        refine ⟨?_, ?_⟩
        · intro c; cases c <;> simp [counterOf, opCategory]
        · exact append_one_log _ _ _ (hfresh _ (by simp [categoryKey]))
    | some d =>
      cases na with
      | none =>
        obtain ⟨h3, hfs, hp⟩ := update_dirs_file_ok p ts fs d fs2 p2 hok
        subst hp
        simp only [opCategory, counterOf, opIncrement,
          Option.isSome_none, Option.isSome_some, if_true,
          Bool.false_eq_true, if_false, Nat.add_zero] at hfresh ⊢
        rw [expectedKeys_one] at hfresh ⊢
        refine ⟨?_, ?_⟩
        · intro c; cases c <;> simp [counterOf, opCategory]
        · exact append_one_log _ _ _ (hfresh _ (by simp [categoryKey]))
      | some a =>
        obtain ⟨h3, hp⟩ := update_dirs_both_ok p ts fs d a fs2 p2 hok
        subst hp
        simp only [opCategory, counterOf, opIncrement,
          Option.isSome_some, if_true] at hfresh hnd ⊢
        rw [expectedKeys_two] at hfresh hnd ⊢
        simp only [List.nodup_cons, List.mem_singleton, List.nodup_nil,
          and_true, not_false_eq_true] at hnd
        refine ⟨?_, ?_⟩
        · intro c; cases c <;> simp [counterOf, opCategory]
        · exact append_two_log _ _ _ _ _ (hfresh _ (by simp [categoryKey])) (hfresh _ (by simp [categoryKey])) hnd.1
  | update_status ts s =>
    simp only [applyOp] at hok
    simp only [Except.ok.injEq, Prod.mk.injEq] at hok
    obtain ⟨hfs, hp⟩ := hok
    subst hp
    simp only [opCategory, counterOf, opIncrement] at hfresh ⊢
    rw [expectedKeys_one] at hfresh ⊢
    refine ⟨?_, ?_⟩
    · intro c; cases c <;> simp [counterOf, Project.update_status, opCategory]
    · exact append_one_log _ _ _ (hfresh _ (by simp [categoryKey]))
  | update_responsible ts rt r =>
    simp only [applyOp] at hok
    simp only [Except.ok.injEq, Prod.mk.injEq] at hok
    obtain ⟨hfs, hp⟩ := hok
    subst hp
    simp only [opCategory, counterOf, opIncrement] at hfresh ⊢
    rw [expectedKeys_one] at hfresh ⊢
    refine ⟨?_, ?_⟩
    · intro c; cases c <;> simp [counterOf, Project.update_responsible, opCategory]
    · exact append_one_log _ _ _ (hfresh _ (by simp [categoryKey]))
  | update_quantity ts q =>
    simp only [applyOp] at hok
    simp only [Except.ok.injEq, Prod.mk.injEq] at hok
    obtain ⟨hfs, hp⟩ := hok
    subst hp
    simp only [opCategory, counterOf, opIncrement] at hfresh ⊢
    rw [expectedKeys_one] at hfresh ⊢
    refine ⟨?_, ?_⟩
    · intro c; cases c <;> simp [counterOf, Project.update_quantity, opCategory]
    · exact append_one_log _ _ _ (hfresh _ (by simp [categoryKey]))
  | update_name ts n =>
    simp only [applyOp] at hok
    simp only [Except.ok.injEq, Prod.mk.injEq] at hok
    obtain ⟨hfs, hp⟩ := hok
    subst hp
    simp only [opCategory, counterOf, opIncrement] at hfresh ⊢
    rw [expectedKeys_one] at hfresh ⊢
    refine ⟨?_, ?_⟩
    · intro c; cases c <;> simp [counterOf, Project.update_name, opCategory]
    · exact append_one_log _ _ _ (hfresh _ (by simp [categoryKey]))
  | update_customer_id ts cid =>
    simp only [applyOp] at hok
    simp only [Except.ok.injEq, Prod.mk.injEq] at hok
    obtain ⟨hfs, hp⟩ := hok
    subst hp
    simp only [opCategory, counterOf, opIncrement] at hfresh ⊢
    rw [expectedKeys_one] at hfresh ⊢
    refine ⟨?_, ?_⟩
    · intro c; cases c <;> simp [counterOf, Project.update_customer_id, opCategory]
    · exact append_one_log _ _ _ (hfresh _ (by simp [categoryKey]))
  | update_shipping_info ts si =>
    simp only [applyOp] at hok
    simp only [Except.ok.injEq, Prod.mk.injEq] at hok
    obtain ⟨hfs, hp⟩ := hok
    subst hp
    simp only [opCategory, counterOf, opIncrement] at hfresh ⊢
    rw [expectedKeys_one] at hfresh ⊢
    refine ⟨?_, ?_⟩
    · intro c; cases c <;> simp [counterOf, Project.update_shipping_info, opCategory]
    · exact append_one_log _ _ _ (hfresh _ (by simp [categoryKey]))

lemma update_file_err (p : Project) (ts : String) (fs : Finset FPath)
    (f : FPath) (nv : Bool) (e : PyErr) (fs2 : Finset FPath) (p2 : Project)
    (h : p.update_file ts fs f nv = .error (e, fs2, p2)) :
    fs2 = fs ∧ (p2 = p ∨
      p2 = { p with _file_change_count := p._file_change_count + 1 }) := by
  unfold Project.update_file at h
  split at h
  · simp only [Except.error.injEq, Prod.mk.injEq] at h
    exact ⟨h.2.1.symm, .inl h.2.2.symm⟩
  · split at h
    · simp only [Except.error.injEq, Prod.mk.injEq] at h
      exact ⟨h.2.1.symm, .inl h.2.2.symm⟩
    · split at h
      · dsimp only at h
        split at h
        · simp only [Except.error.injEq, Prod.mk.injEq] at h
          exact ⟨h.2.1.symm, .inr h.2.2.symm⟩
        · simp at h
      · simp at h

lemma update_dirs_err (p : Project) (ts : String) (fs : Finset FPath)
    (nf na : Option String) (e : PyErr) (fs2 : Finset FPath) (p2 : Project)
    (h : p.update_file_directories ts fs nf na = .error (e, fs2, p2)) :
    fs2 = fs ∧ (p2 = p ∨
      p2 = { p with _file_change_count := p._file_change_count + 1 }) := by
  cases nf with
  | none =>
    cases na with
    | none =>
      rw [update_dirs_none_none p ts fs] at h
      simp only [Except.error.injEq, Prod.mk.injEq] at h
      exact ⟨h.2.1.symm, .inl h.2.2.symm⟩
    | some a =>
      unfold Project.update_file_directories at h
      rw [if_neg (by simp)] at h
      simp at h
  | some d =>
    cases na with
    | none =>
      unfold Project.update_file_directories at h
      rw [if_neg (by simp)] at h
      dsimp only at h
      cases hm : fsMove fs p.file ⟨d, p.file.stem, p.file.ext⟩ with
      | none =>
        rw [hm] at h
        simp only [Except.error.injEq, Prod.mk.injEq] at h
        exact ⟨h.2.1.symm, .inr h.2.2.symm⟩
      | some fs1 =>
        rw [hm] at h
        simp at h
    | some a =>
      unfold Project.update_file_directories at h
      rw [if_neg (by simp)] at h
      dsimp only at h
      cases hm : fsMove fs p.file ⟨d, p.file.stem, p.file.ext⟩ with
      | none =>
        rw [hm] at h
        simp only [Except.error.injEq, Prod.mk.injEq] at h
        exact ⟨h.2.1.symm, .inr h.2.2.symm⟩
      | some fs1 =>
        rw [hm] at h
        simp at h

def isAddComment : POp → Bool
  | .add_comment _ _ => true
  | _ => false

def quantityArg : POp → Option Int
  | .update_quantity _ q => some q
  | _ => none

/-- The stream of comment ids issued by the `add_comment` calls of a run. -/
def issuedIds (ops : List POp) (s : Finset FPath × Project) : List Int :=
  match ops with
  | [] => []
  | op :: rest =>
    let s2 := stepOp op s
    if isAddComment op then s2.2._comment_id :: issuedIds rest s2
    else issuedIds rest s2

def numAdds (ops : List POp) : Nat := (ops.filter isAddComment).length

lemma stepOp_comment_id (op : POp) (s : Finset FPath × Project) :
    (stepOp op s).2._comment_id =
      s.2._comment_id + (if isAddComment op then 1 else 0) := by
  obtain ⟨fs, p⟩ := s
  cases op with
  | add_comment ts c =>
    simp [stepOp, applyOp, isAddComment, Project.add_comment]
  | remove_comment ts cid =>
    simp only [stepOp, applyOp, isAddComment]
    cases hrc : p.remove_comment ts cid with
    | error e => simp
    | ok pr =>
      obtain ⟨hc, hstruct⟩ := remove_comment_ok p ts cid pr hrc
      subst hstruct
      simp
  | edit_comment ts uc cid =>
    simp only [stepOp, applyOp, isAddComment]
    cases hrc : p.edit_comment ts uc cid with
    | error e => simp
    | ok pr =>
      obtain ⟨hc, hstruct⟩ := edit_comment_ok p ts uc cid pr hrc
      subst hstruct
      simp
  | update_master_id ts mid => simp [stepOp, applyOp, isAddComment, Project.update_master_id]
  | update_file ts f nv =>
    simp only [stepOp, applyOp, isAddComment]
    cases hres : p.update_file ts fs f nv with
    | error er =>
      obtain ⟨e, fs2, p2⟩ := er
      obtain ⟨hfs, hp | hp⟩ := update_file_err p ts fs f nv e fs2 p2 hres <;>
        subst hp <;> simp
    | ok r =>
      obtain ⟨fs2, p2⟩ := r
      cases nv with
      | true =>
        obtain ⟨h1, h2, h3, hfs, msg, hp⟩ := update_file_true_ok p ts fs f fs2 p2 hres
        subst hp; simp
      | false =>
        obtain ⟨h1, h2, hfs, msg, hp⟩ := update_file_false_ok p ts fs f fs2 p2 hres
        subst hp; simp
  | update_file_directories ts nf na =>
    simp only [stepOp, applyOp, isAddComment]
    cases hres : p.update_file_directories ts fs nf na with
    | error er =>
      obtain ⟨e, fs2, p2⟩ := er
      obtain ⟨hfs, hp | hp⟩ := update_dirs_err p ts fs nf na e fs2 p2 hres <;>
        subst hp <;> simp
    | ok r =>
      obtain ⟨fs2, p2⟩ := r
      cases nf with
      | none =>
        cases na with
        | none => rw [update_dirs_none_none p ts fs] at hres; simp at hres
        | some a =>
          obtain ⟨hfs, hp⟩ := update_dirs_archive_ok p ts fs a fs2 p2 hres
          subst hp; simp
      | some d =>
        cases na with
        | none =>
          obtain ⟨h3, hfs, hp⟩ := update_dirs_file_ok p ts fs d fs2 p2 hres
          subst hp; simp
        | some a =>
          obtain ⟨h3, hp⟩ := update_dirs_both_ok p ts fs d a fs2 p2 hres
          subst hp; simp
  | update_status ts st =>
    simp [stepOp, applyOp, isAddComment, Project.update_status]
  | update_responsible ts rt r =>
    simp [stepOp, applyOp, isAddComment, Project.update_responsible]
  | update_quantity ts q =>
    simp [stepOp, applyOp, isAddComment, Project.update_quantity]
  | update_name ts n =>
    simp [stepOp, applyOp, isAddComment, Project.update_name]
  | update_customer_id ts cid =>
    simp [stepOp, applyOp, isAddComment, Project.update_customer_id]
  | update_shipping_info ts si =>
    simp [stepOp, applyOp, isAddComment, Project.update_shipping_info]

lemma stepOp_quantity (op : POp) (s : Finset FPath × Project) :
    (stepOp op s).2.quantity = (quantityArg op).getD s.2.quantity := by
  obtain ⟨fs, p⟩ := s
  cases op with
  | add_comment ts c =>
    simp [stepOp, applyOp, quantityArg, Project.add_comment]
  | remove_comment ts cid =>
    simp only [stepOp, applyOp, quantityArg]
    cases hrc : p.remove_comment ts cid with
    | error e => simp
    | ok pr =>
      obtain ⟨hc, hstruct⟩ := remove_comment_ok p ts cid pr hrc
      subst hstruct
      simp
  | edit_comment ts uc cid =>
    simp only [stepOp, applyOp, quantityArg]
    cases hrc : p.edit_comment ts uc cid with
    | error e => simp
    | ok pr =>
      obtain ⟨hc, hstruct⟩ := edit_comment_ok p ts uc cid pr hrc
      subst hstruct
      simp
  | update_master_id ts mid =>
    simp [stepOp, applyOp, quantityArg, Project.update_master_id]
  | update_file ts f nv =>
    simp only [stepOp, applyOp, quantityArg]
    cases hres : p.update_file ts fs f nv with
    | error er =>
      obtain ⟨e, fs2, p2⟩ := er
      obtain ⟨hfs, hp | hp⟩ := update_file_err p ts fs f nv e fs2 p2 hres <;>
        subst hp <;> simp
    | ok r =>
      obtain ⟨fs2, p2⟩ := r
      cases nv with
      | true =>
        obtain ⟨h1, h2, h3, hfs, msg, hp⟩ := update_file_true_ok p ts fs f fs2 p2 hres
        subst hp; simp
      | false =>
        obtain ⟨h1, h2, hfs, msg, hp⟩ := update_file_false_ok p ts fs f fs2 p2 hres
        subst hp; simp
  | update_file_directories ts nf na =>
    simp only [stepOp, applyOp, quantityArg]
    cases hres : p.update_file_directories ts fs nf na with
    | error er =>
      obtain ⟨e, fs2, p2⟩ := er
      obtain ⟨hfs, hp | hp⟩ := update_dirs_err p ts fs nf na e fs2 p2 hres <;>
        subst hp <;> simp
    | ok r =>
      obtain ⟨fs2, p2⟩ := r
      cases nf with
      | none =>
        cases na with
        | none => rw [update_dirs_none_none p ts fs] at hres; simp at hres
        | some a =>
          obtain ⟨hfs, hp⟩ := update_dirs_archive_ok p ts fs a fs2 p2 hres
          subst hp; simp
      | some d =>
        cases na with
        | none =>
          obtain ⟨h3, hfs, hp⟩ := update_dirs_file_ok p ts fs d fs2 p2 hres
          subst hp; simp
        | some a =>
          obtain ⟨h3, hp⟩ := update_dirs_both_ok p ts fs d a fs2 p2 hres
          subst hp; simp
  | update_status ts st =>
    simp [stepOp, applyOp, quantityArg, Project.update_status]
  | update_responsible ts rt r =>
    simp [stepOp, applyOp, quantityArg, Project.update_responsible]
  | update_quantity ts q =>
    simp [stepOp, applyOp, quantityArg, Project.update_quantity]
  | update_name ts n =>
    simp [stepOp, applyOp, quantityArg, Project.update_name]
  | update_customer_id ts cid =>
    simp [stepOp, applyOp, quantityArg, Project.update_customer_id]
  | update_shipping_info ts si =>
    simp [stepOp, applyOp, quantityArg, Project.update_shipping_info]

lemma runOps_cons (op : POp) (ops : List POp) (s : Finset FPath × Project) :
    runOps (op :: ops) s = runOps ops (stepOp op s) := rfl

lemma issuedIds_formula (ops : List POp) (s : Finset FPath × Project) :
    issuedIds ops s =
      (List.range (numAdds ops)).map
        (fun i : Nat => s.2._comment_id + 1 + (i : Int)) := by
  induction ops generalizing s with
  | nil => simp [issuedIds, numAdds]
  | cons op rest ih =>
    have hcid := stepOp_comment_id op s
    by_cases hadd : isAddComment op = true
    · rw [if_pos hadd] at hcid
      simp only [issuedIds, hadd, if_true]
      have hn : numAdds (op :: rest) = numAdds rest + 1 := by
        simp [numAdds, List.filter_cons, hadd]
      rw [hn, ih (stepOp op s), hcid, List.range_succ_eq_map]
      simp only [List.map_cons, List.map_map]
      refine congrArg₂ List.cons (by push_cast; ring) ?_
      refine List.map_congr_left ?_
      intro a ha
      simp only [Function.comp_apply]
      push_cast
      ring
    · rw [if_neg hadd] at hcid
      simp only [add_zero] at hcid
      have hfalse : isAddComment op = false := by
        revert hadd; cases isAddComment op <;> simp
      simp only [issuedIds, hfalse, Bool.false_eq_true, if_false]
      have hn : numAdds (op :: rest) = numAdds rest := by
        simp [numAdds, List.filter_cons, hfalse]
      rw [hn, ih (stepOp op s), hcid]

/-- Run `update_file(..., new_version=True)` once per listed file, in order
(the store's caller aborts the sequence at the first exception). -/
def updateFileSeq (ts : String) (fs : Finset FPath) (p : Project) :
    List FPath → Except (PyErr × Finset FPath × Project) (Finset FPath × Project)
  | [] => .ok (fs, p)
  | f :: rest =>
    match p.update_file ts fs f true with
    | .ok (fs2, p2) => updateFileSeq ts fs2 p2 rest
    | .error e => .error e

/-- Sanity side conditions of a versioned-update run: before each call the
archived destination name is not already taken, and neither the incoming
file nor the current file lives inside the archive directory. -/
def seqSideCond (ts : String) (fs : Finset FPath) (p : Project) :
    List FPath → Bool
  | [] => true
  | f :: rest =>
    decide ((⟨p.archive_directory, p.get_file_version, p.file.ext⟩ : FPath) ∉ fs) &&
    decide (f.dir ≠ p.archive_directory) &&
    decide (p.file.dir ≠ p.archive_directory) &&
    (match p.update_file ts fs f true with
     | .ok (fs2, p2) => seqSideCond ts fs2 p2 rest
     | .error _ => true)

/-- The archive filenames a versioned-update run is expected to create:
`{record_id}_v{k}` onward, each carrying the extension of the file it
replaced. -/
def archivedNames (pid arch : String) (k : Int) (cur : FPath) :
    List FPath → List FPath
  | [] => []
  | f :: rest =>
    ⟨arch, s!"{pid}_v{k}", cur.ext⟩ :: archivedNames pid arch (k + 1) f rest

lemma archivedNames_length (pid arch : String) :
    ∀ (files : List FPath) (k : Int) (cur : FPath),
    (archivedNames pid arch k cur files).length = files.length := by
  intro files
  induction files with
  | nil => intro k cur; rfl
  | cons f rest ih => intro k cur; simp [archivedNames, ih]

lemma updateFileSeq_spec (ts : String) (files : List FPath) :
    ∀ (fs : Finset FPath) (p : Project) (L : List FPath)
      (fs2 : Finset FPath) (p2 : Project),
    seqSideCond ts fs p files = true →
    updateFileSeq ts fs p files = .ok (fs2, p2) →
    fs.filter (fun g => g.dir = p.archive_directory) = L.toFinset →
    L.Nodup →
    p2.archive_directory = p.archive_directory ∧
    p2.master_id = p.master_id ∧ p2.sub_id = p.sub_id ∧
    p2._file_version = p._file_version + files.length ∧
    (L ++ archivedNames p.get_project_id p.archive_directory
      p._file_version p.file files).Nodup ∧
    fs2.filter (fun g => g.dir = p.archive_directory) =
      (L ++ archivedNames p.get_project_id p.archive_directory
        p._file_version p.file files).toFinset := by
  induction files with
  | nil =>
    intro fs p L fs2 p2 hside hok hfilter hnd
    simp only [updateFileSeq, Except.ok.injEq, Prod.mk.injEq] at hok
    obtain ⟨hfs, hp⟩ := hok
    subst hfs
    subst hp
    simp [archivedNames, hfilter, hnd]
  | cons f rest ih =>
    intro fs p L fs2 p2 hside hok hfilter hnd
    simp only [seqSideCond, Bool.and_eq_true, decide_eq_true_eq] at hside
    obtain ⟨⟨⟨hdst, hfdir⟩, hcurdir⟩, hrest⟩ := hside
    simp only [updateFileSeq] at hok
    cases hres : p.update_file ts fs f true with
    | error e => rw [hres] at hok; simp at hok
    | ok r =>
      obtain ⟨fs1, p1⟩ := r
      rw [hres] at hok hrest
      obtain ⟨h1, h2, h3, hfs1, msg, hp1⟩ := update_file_true_ok p ts fs f fs1 p1 hres
      subst hfs1
      subst hp1
      dsimp only at hok hrest
      have hdstP : (⟨p.archive_directory, p.get_file_version, p.file.ext⟩ : FPath).dir
          = p.archive_directory := rfl
      have hcurnot : p.file ∉ fs.filter (fun g => g.dir = p.archive_directory) := by
        simp only [Finset.mem_filter]
        exact fun hc => hcurdir hc.2
      have hfilter1 :
          (insert (⟨p.archive_directory, p.get_file_version, p.file.ext⟩ : FPath)
            (fs.erase p.file)).filter (fun g => g.dir = p.archive_directory) =
          (L ++ [(⟨p.archive_directory, p.get_file_version, p.file.ext⟩ : FPath)]).toFinset := by
        rw [Finset.filter_insert, if_pos hdstP, Finset.filter_erase,
          Finset.erase_eq_of_not_mem hcurnot, hfilter]
        ext x
        simp [or_comm]
      have hdstL : (⟨p.archive_directory, p.get_file_version, p.file.ext⟩ : FPath) ∉ L := by
        intro hmem
        apply hdst
        have : (⟨p.archive_directory, p.get_file_version, p.file.ext⟩ : FPath)
            ∈ fs.filter (fun g => g.dir = p.archive_directory) := by
          rw [hfilter]
          simpa using hmem
        exact (Finset.mem_filter.mp this).1
      have hnd1 : (L ++ [(⟨p.archive_directory, p.get_file_version, p.file.ext⟩ : FPath)]).Nodup := by
        rw [List.nodup_append]
        refine ⟨hnd, by simp, ?_⟩
        intro a ha hb
        simp only [List.mem_singleton] at hb
        subst hb
        exact hdstL ha
      obtain ⟨ha, hm, hs, hv, hndf, hf⟩ :=
        ih _ _ (L ++ [(⟨p.archive_directory, p.get_file_version, p.file.ext⟩ : FPath)])
          fs2 p2 hrest hok hfilter1 hnd1
      refine ⟨ha, hm, hs, ?_, ?_, ?_⟩
      · rw [hv]
        simp only [List.length_cons]
        push_cast
        ring
      · rw [show (L ++ archivedNames p.get_project_id p.archive_directory
            p._file_version p.file (f :: rest)) =
          ((L ++ [(⟨p.archive_directory, p.get_file_version, p.file.ext⟩ : FPath)]) ++
            archivedNames p.get_project_id p.archive_directory
              (p._file_version + 1) f rest) from by
          simp [archivedNames, Project.get_file_version]]
        exact hndf
      · rw [show (L ++ archivedNames p.get_project_id p.archive_directory
            p._file_version p.file (f :: rest)) =
          ((L ++ [(⟨p.archive_directory, p.get_file_version, p.file.ext⟩ : FPath)]) ++
            archivedNames p.get_project_id p.archive_directory
              (p._file_version + 1) f rest) from by
          simp [archivedNames, Project.get_file_version]]
        exact hf

lemma find_map_overwrite {α : Type} (k : String) (v : α)
    (d : List (String × α)) :
    (d.map (fun kv => if kv.1 = k then (k, v) else kv)).find?
        (fun kv => kv.1 = k) =
      if d.any (fun kv => kv.1 = k) then some (k, v) else none := by
  induction d with
  | nil => simp
  | cons kv tl ih =>
    by_cases h : kv.1 = k
    · simp [h]
    · have hd : decide (kv.1 = k) = false := decide_eq_false h
      rw [List.map_cons, List.find?_cons_of_neg, ih, List.any_cons, hd]
      · rw [Bool.false_or]
      · rw [if_neg h, hd]
        exact Bool.false_ne_true

lemma dictLookup_dictInsert_self {α : Type} (d : List (String × α))
    (k : String) (v : α) :
    dictLookup (dictInsert d k v) k = some v := by
  unfold dictInsert dictLookup
  by_cases h : d.any (fun kv => kv.1 = k)
  · rw [if_pos h, find_map_overwrite, if_pos h]
    rfl
  · rw [if_neg h]
    have hnone : d.find? (fun kv => kv.1 = k) = none := by
      rw [List.find?_eq_none]
      intro x hx
      simp only [decide_eq_true_eq]
      intro hk
      exact absurd (List.any_eq_true.mpr ⟨x, hx, by simp [hk]⟩) h
    rw [List.find?_append, hnone]
    simp

/-- Extract the success filesystem of a file operation (default otherwise). -/
def okFS (r : Except (PyErr × Finset FPath × Project) (Finset FPath × Project))
    (dflt : Finset FPath) : Finset FPath :=
  match r with
  | .ok (fs, _) => fs
  | .error _ => dflt

/-- Extract the success record of a file operation (default otherwise). -/
def okProj (r : Except (PyErr × Finset FPath × Project) (Finset FPath × Project))
    (dflt : Project) : Project :=
  match r with
  | .ok (_, p) => p
  | .error _ => dflt

/-- Extract the record state at the point an operation raised. -/
def errProj (r : Except (PyErr × Finset FPath × Project) (Finset FPath × Project))
    (dflt : Project) : Project :=
  match r with
  | .error (_, _, p) => p
  | .ok _ => dflt

/-- Which exception, if any, an operation raised. -/
def errKind (r : Except (PyErr × Finset FPath × Project) (Finset FPath × Project)) :
    Option PyErr :=
  match r with
  | .error (e, _, _) => some e
  | .ok _ => none

/-- Run a call sequence propagating the first exception (unlike `runOps`,
which models callers that catch). -/
def applyOps (ops : List POp) (s : Finset FPath × Project) :
    Except (PyErr × Finset FPath × Project) (Finset FPath × Project) :=
  match ops with
  | [] => .ok s
  | op :: rest =>
    match applyOp op s.1 s.2 with
    | .ok s2 => applyOps rest s2
    | .error e => .error e

def exceptOk (r : Except (PyErr × Finset FPath × Project) (Finset FPath × Project)) :
    Bool :=
  match r with
  | .ok _ => true
  | .error _ => false

def cubeStl : FPath := ⟨"d", "cube", ".stl"⟩

def cube2Stl : FPath := ⟨"d", "cube2", ".stl"⟩

def pHAM : Project :=
  Project.make "HAM" 1 cubeStl "arch" [("manager", ["Alice"])] 2

def fsHAM : Finset FPath := {cubeStl}

def mEmpty : Manager := ⟨[], [], none⟩

def mHAM : Manager :=
  (mEmpty.create_project "HAM" 1 cubeStl "arch" [("Design", ["Alice"])] 1).1

/-- C5: starting from `file_version = 1` and an empty archive directory,
n successive `update_file(..., new_version=True)` calls (each moving the
current file aside) leave exactly n archived files, named
`{record_id}_v1` .. `{record_id}_v{n}`, each carrying the extension of the
file it replaced, and leave `file_version = n + 1`. -/
theorem update_file_versioning_sequence (ts : String) (fs : Finset FPath)
    (p : Project) (files : List FPath) (fs2 : Finset FPath) (p2 : Project)
    (hfv : p._file_version = 1)
    (hempty : fs.filter (fun g => g.dir = p.archive_directory) = ∅)
    (hside : seqSideCond ts fs p files = true)
    (hok : updateFileSeq ts fs p files = .ok (fs2, p2)) :
    p2._file_version = files.length + 1 ∧
    fs2.filter (fun g => g.dir = p.archive_directory) =
      (archivedNames p.get_project_id p.archive_directory 1 p.file files).toFinset ∧
    (fs2.filter (fun g => g.dir = p.archive_directory)).card = files.length := by
  obtain ⟨ha, hm, hs, hv, hnd, hf⟩ :=
    updateFileSeq_spec ts files fs p [] fs2 p2 hside hok (by simp [hempty])
      List.nodup_nil
  rw [hfv] at hv hnd hf
  simp only [List.nil_append] at hnd hf
  refine ⟨by omega, hf, ?_⟩
  rw [hf, List.toFinset_card_of_nodup hnd, archivedNames_length]

def commentScenarioOps : List POp :=
  [.add_comment "t1" "a", .add_comment "t2" "b",
   .edit_comment "t3" "b2" 2, .remove_comment "t4" 1]

def pC3 : Project := Project.make "HAM" 1 cubeStl "arch" [] 2

/-- C3: on a fresh `HAM_1` record with quantity 2, the sequence
`add_comment("a")`, `add_comment("b")`, `edit_comment` of comment 2 to
`"b2"`, `remove_comment(1)` succeeds and leaves exactly one live comment,
id 2, whose body is the edited text `"edited {timestamp}: {new_text}"`,
with exactly 4 comment-category change-log entries (#1 add, #2 add,
#3 edit, #4 remove). -/
theorem comment_scenario_ham1 :
    exceptOk (applyOps commentScenarioOps (∅, pC3)) = true ∧
    (okProj (applyOps commentScenarioOps (∅, pC3)) pC3).comments =
      [("comment_2", "edited t3: b2")] ∧
    (okProj (applyOps commentScenarioOps (∅, pC3)) pC3).change_log =
      [("Comment Change #1", "t1: comment_1 added"),
       ("Comment Change #2", "t2: comment_2 added"),
       ("Comment Change #3", "t3: Comment 2 edited"),
       ("Comment Change #4", "t4: Comment 1 deleted")] ∧
    (okProj (applyOps commentScenarioOps (∅, pC3)) pC3)._comment_change_count
      = 4 := by
  refine ⟨?_, ?_, ?_, ?_⟩ <;> decide

/-- C6: `update_file` raises `FileNotFoundError` when the path does not
exist on the filesystem, and `ValueError` when the path equals the current
file; in both cases the filesystem and the record (counters, fields and
change log included) are returned exactly as they were. -/
theorem update_file_failure_modes (p : Project) (ts : String)
    (fs : Finset FPath) (f : FPath) (nv : Bool) :
    (f ∉ fs → p.update_file ts fs f nv =
      .error (.fileNotFound s!"File {f.name} does not exist", fs, p)) ∧
    (f ∈ fs → f = p.file → p.update_file ts fs f nv =
      .error (.valueError "New file cannot be the same as current file", fs, p)) := by
  constructor
  · intro h
    exact update_file_notfound p ts fs f nv h
  · intro h1 h2
    subst h2
    exact update_file_samefile p ts fs nv h1

/-- C6 witness: both failure modes at concrete inputs. -/
theorem update_file_failure_modes_witness :
    (pHAM.update_file "t" ∅ cubeStl true =
      .error (.fileNotFound "File cube.stl does not exist", ∅, pHAM)) ∧
    (pHAM.update_file "t" fsHAM cubeStl true =
      .error (.valueError "New file cannot be the same as current file",
        fsHAM, pHAM)) :=
  ⟨(update_file_failure_modes pHAM "t" ∅ cubeStl true).1 (by decide),
   (update_file_failure_modes pHAM "t" fsHAM cubeStl true).2 (by decide) rfl⟩

/-- C2 (amended): in `update_file` with `new_version=True`, the archive
move happens before `file_version`, `file`, `volume` and the change log
are touched, so a failed move leaves all of those in their prior state (no
partial version bump) — but the file-change counter has already been
incremented before the move, so it alone is left advanced by 1. -/
theorem update_file_move_failure_state (p : Project) (ts : String)
    (fs : Finset FPath) (f : FPath)
    (h1 : f ∈ fs) (h2 : f ≠ p.file) (h3 : p.file ∉ fs) :
    p.update_file ts fs f true =
      .error (.ioError "move failed", fs,
        { p with _file_change_count := p._file_change_count + 1 }) :=
  update_file_move_failed p ts fs f h1 h2 h3

def fsC2 : Finset FPath := {cube2Stl}

/-- C2 witness: a concrete failed move leaves only the counter advanced. -/
theorem update_file_move_failure_state_witness :
    pHAM.update_file "t" fsC2 cube2Stl true =
      .error (.ioError "move failed", fsC2,
        { pHAM with _file_change_count := pHAM._file_change_count + 1 }) :=
  update_file_move_failure_state pHAM "t" fsC2 cube2Stl (by decide) (by decide)
    (by decide)

/-- C2 counterexample: after a failed archive move the record is *not* in
its prior state — the file-change counter was incremented before the move
(1 against the prior 0), refuting "the record ... is left exactly in its
prior state, with no ... counter" change. -/
theorem update_file_move_failure_counterexample :
    errKind (pHAM.update_file "t" fsC2 cube2Stl true) =
      some (.ioError "move failed") ∧
    (errProj (pHAM.update_file "t" fsC2 cube2Stl true) pHAM)._file_change_count
      = 1 ∧
    pHAM._file_change_count = 0 := by
  refine ⟨?_, ?_, ?_⟩ <;> decide

/-- C7: comment identifiers are never reused within a record's lifetime.
Over any run of mutation calls, the ids issued by the `add_comment` calls
are exactly consecutive integers starting above the record's id counter —
in particular strictly increasing and pairwise distinct even across
removals — and on a fresh record they are 1, 2, 3, ... . -/
theorem comment_ids_never_reused (ops : List POp) (fs : Finset FPath)
    (p : Project) :
    issuedIds ops (fs, p) =
      (List.range (numAdds ops)).map
        (fun i : Nat => p._comment_id + 1 + (i : Int)) ∧
    List.Pairwise (· < ·) (issuedIds ops (fs, p)) ∧
    (p._comment_id = 0 → issuedIds ops (fs, p) =
      (List.range (numAdds ops)).map (fun i : Nat => (i : Int) + 1)) := by
  refine ⟨issuedIds_formula ops (fs, p), ?_, ?_⟩
  · rw [issuedIds_formula ops (fs, p)]
    refine List.Pairwise.map _ ?_ (List.pairwise_lt_range (numAdds ops))
    intro a b hab
    omega
  · intro h0
    rw [issuedIds_formula ops (fs, p), h0]
    refine List.map_congr_left ?_
    intro a ha
    omega

/-- C10: relocating the active-file directory moves the file, rewrites the
`file` field, increments the file-change counter and appends one log
entry, but never touches `volume` — the volume-recompute hook is not
invoked on a directory relocation, whereas every successful `update_file`
rewrites `volume` with the hook's (placeholder) result. -/
theorem dir_relocation_volume_frame :
    (∀ (p : Project) (ts : String) (fs : Finset FPath) (d : String)
       (fs2 : Finset FPath) (p2 : Project),
       p.update_file_directories ts fs (some d) none = .ok (fs2, p2) →
       p2.volume = p.volume ∧
       p2.file = ⟨d, p.file.stem, p.file.ext⟩ ∧
       p2._file_change_count = p._file_change_count + 1 ∧
       p2.change_log = dictInsert p.change_log
         s!"Project File Change #{p._file_change_count + 1}"
         s!"{ts}: File directory changed to {d}" ∧
       fs2 = insert (⟨d, p.file.stem, p.file.ext⟩ : FPath) (fs.erase p.file) ∧
       p2._file_version = p._file_version) ∧
    (∀ (p : Project) (ts : String) (fs : Finset FPath) (f : FPath) (nv : Bool)
       (fs2 : Finset FPath) (p2 : Project),
       p.update_file ts fs f nv = .ok (fs2, p2) → p2.volume = 0.0) := by
  constructor
  · intro p ts fs d fs2 p2 hok
    obtain ⟨h3, hfs, hp⟩ := update_dirs_file_ok p ts fs d fs2 p2 hok
    subst hfs
    subst hp
    exact ⟨rfl, rfl, rfl, rfl, rfl, rfl⟩
  · intro p ts fs f nv fs2 p2 hok
    cases nv with
    | true =>
      obtain ⟨h1, h2, h3, hfs, msg, hp⟩ := update_file_true_ok p ts fs f fs2 p2 hok
      subst hp
      rfl
    | false =>
      obtain ⟨h1, h2, hfs, msg, hp⟩ := update_file_false_ok p ts fs f fs2 p2 hok
      subst hp
      rfl

def fsBig : Finset FPath := {cubeStl, cube2Stl}

/-- C10 witness: a concrete directory relocation keeps `volume` (here 0.0
is the prior value), and a concrete `update_file` writes the hook's
placeholder. -/
theorem dir_relocation_volume_frame_witness :
    (okProj (pHAM.update_file_directories "t" fsHAM (some "nd") none) pHAM).volume
      = pHAM.volume ∧
    (okProj (pHAM.update_file "t" fsBig cube2Stl true) pHAM).volume = 0.0 :=
  ⟨(dir_relocation_volume_frame.1 pHAM "t" fsHAM "nd"
      (okFS (pHAM.update_file_directories "t" fsHAM (some "nd") none) fsHAM)
      (okProj (pHAM.update_file_directories "t" fsHAM (some "nd") none) pHAM)
      rfl).1,
   dir_relocation_volume_frame.2 pHAM "t" fsBig cube2Stl true
     (okFS (pHAM.update_file "t" fsBig cube2Stl true) fsBig)
     (okProj (pHAM.update_file "t" fsBig cube2Stl true) pHAM) rfl⟩

/-- C1 witness: a concrete `update_status` call increments exactly its own
category counter by its increment. -/
theorem mutation_counter_log_discipline_witness :
    counterOf Category.statusC
      (okProj (applyOp (POp.update_status "t" "Printing") fsHAM pHAM) pHAM) =
      counterOf Category.statusC pHAM +
        (if Category.statusC = opCategory (POp.update_status "t" "Printing")
          then opIncrement (POp.update_status "t" "Printing") else 0) :=
  (mutation_counter_log_discipline (POp.update_status "t" "Printing") fsHAM
    pHAM
    (okFS (applyOp (POp.update_status "t" "Printing") fsHAM pHAM) fsHAM)
    (okProj (applyOp (POp.update_status "t" "Printing") fsHAM pHAM) pHAM)
    rfl (by decide) (by decide)).1 Category.statusC

/-- C1 counterexample: one `update_file_directories` call with both
directories provided increments the file-change counter by 2 and appends
two change-log entries, refuting "increments ... by exactly 1, and appends
exactly one new change-log entry" for that operation. -/
theorem update_file_directories_double_increment :
    exceptOk (applyOp (POp.update_file_directories "t" (some "nd") (some "na"))
      fsHAM pHAM) = true ∧
    (okProj (applyOp (POp.update_file_directories "t" (some "nd") (some "na"))
      fsHAM pHAM) pHAM)._file_change_count = 2 ∧
    pHAM._file_change_count = 0 ∧
    (okProj (applyOp (POp.update_file_directories "t" (some "nd") (some "na"))
      fsHAM pHAM) pHAM).change_log.length = pHAM.change_log.length + 2 := by
  refine ⟨?_, ?_, ?_, ?_⟩ <;> decide

/-- C4 (amended): the store's generic dispatch fails (with a reported
error and no state change) when `action` does not name a *callable
attribute* of the record — any method, read-only ones included, is
dispatched, not only mutation operations; an exception from the invoked
method is caught and reported with the store unchanged; and only on
success is the record written back, the cached status refreshed and the
index persisted. -/
theorem update_project_dispatch_contract (m : Manager) (ts : String)
    (fs : Finset FPath) (pid action : String) (info : Info) (project : Project)
    (hload : m.get_project pid = some project) :
    (lookupMethod action = none →
      m.update_project ts fs pid action info =
        (fs, m, [s!"[ERROR] Action {action} not valid for Project."])) ∧
    (∀ meth e, lookupMethod action = some meth →
      callMethod meth info ts fs project = .error e →
      m.update_project ts fs pid action info =
        (fs, m, [s!"[ERROR] Failed to apply {action} to {pid}: {e}"])) ∧
    (∀ meth fs2 p2, lookupMethod action = some meth →
      callMethod meth info ts fs project = .ok (fs2, p2) →
      m.update_project ts fs pid action info =
        (fs2,
         ⟨refreshStatus m.index pid p2.status,
          dictInsert m.disk
            (((dictLookup (refreshStatus m.index pid p2.status) pid).map
              (fun en => en.filename)).getD (hashName pid)) (some p2),
          some (refreshStatus m.index pid p2.status)⟩,
         [s!"[INFO] Project {pid} updated successfully via {action}."])) := by
  refine ⟨?_, ?_, ?_⟩
  · intro hl
    unfold Manager.update_project
    rw [hload, hl]
  · intro meth e hl hcall
    unfold Manager.update_project
    rw [hload, hl]
    dsimp only
    rw [hcall]
  · intro meth fs2 p2 hl hcall
    unfold Manager.update_project
    rw [hload, hl]
    dsimp only
    rw [hcall]

def pHAMstored : Project :=
  Project.make "HAM" 1 cubeStl "arch" [("Design", ["Alice"])] 1

/-- C4 witness: an unrecognized action name is rejected with the store
unchanged. -/
theorem update_project_dispatch_contract_witness :
    mHAM.update_project "t" ∅ "HAM_1" "frobnicate" (.dict []) =
      (∅, mHAM, ["[ERROR] Action frobnicate not valid for Project."]) :=
  (update_project_dispatch_contract mHAM "t" ∅ "HAM_1" "frobnicate"
    (.dict []) pHAMstored rfl).1 rfl

/-- C4 counterexample: `"get_info"` is not a mutation operation, yet the
dispatch invokes it, reports success, and persists the index — refuting
"fails with UnsupportedOperation when operation_name is not one of the
record's known mutation operations". -/
theorem update_project_get_info_dispatch :
    lookupMethod "get_info" = some PMethod.get_info ∧
    (mHAM.update_project "t" ∅ "HAM_1" "get_info" (.dict [])).2.2 =
      ["[INFO] Project HAM_1 updated successfully via get_info."] ∧
    ((mHAM.update_project "t" ∅ "HAM_1" "get_info" (.dict [])).2.1.persisted_index).isSome
      = true := by
  refine ⟨?_, ?_, ?_⟩ <;> decide

/-- C9 (amended): the store's fetch itself reports and returns an absent
result — no exception — when the id is unknown to the index, the record
file is missing, or its deserialization fails; but `get_project_info` does
not guard the absent result, so rendering record info for such an id
raises instead of returning absently. -/
theorem fetch_absent_contract (m : Manager) (pid : String) :
    (dictLookup m.index pid = none → m.get_project pid = none) ∧
    (∀ entry, dictLookup m.index pid = some entry →
      dictLookup m.disk entry.filename = some none →
      m.get_project pid = none) ∧
    (∀ entry, dictLookup m.index pid = some entry →
      dictLookup m.disk entry.filename = none →
      m.get_project pid = none) ∧
    (m.get_project pid = none →
      m.get_project_info pid =
        .error "AttributeError: NoneType object has no attribute get_info") := by
  refine ⟨?_, ?_, ?_, ?_⟩
  · intro h
    simp [Manager.get_project, h]
  · intro entry h1 h2
    simp [Manager.get_project, h1, h2]
  · intro entry h1 h2
    simp [Manager.get_project, h1, h2]
  · intro h
    simp [Manager.get_project_info, h]

/-- C9 witness: the three absent cases and the rendering failure at
concrete inputs. -/
theorem fetch_absent_contract_witness :
    mEmpty.get_project "HAM_9" = none ∧
    mEmpty.get_project_info "HAM_9" =
      .error "AttributeError: NoneType object has no attribute get_info" :=
  ⟨(fetch_absent_contract mEmpty "HAM_9").1 rfl,
   (fetch_absent_contract mEmpty "HAM_9").2.2.2
     ((fetch_absent_contract mEmpty "HAM_9").1 rfl)⟩

def mCorrupt : Manager :=
  ⟨[("HAM_7", ⟨"HAM_7.pkl", "Created"⟩)], [("HAM_7.pkl", none)], none⟩

/-- C9 counterexample: for an unknown id, and equally for a corrupt record
blob, rendering record info raises (`AttributeError` on the absent
record) — the absence *is* fatal to that caller, refuting "not fatal to
the caller, including when the fetch is made to render record info". -/
theorem get_project_info_raises_counterexample :
    mHAM.get_project "HAM_9" = none ∧
    mHAM.get_project_info "HAM_9" =
      .error "AttributeError: NoneType object has no attribute get_info" ∧
    mCorrupt.get_project "HAM_7" = none ∧
    mCorrupt.get_project_info "HAM_7" =
      .error "AttributeError: NoneType object has no attribute get_info" :=
  ⟨rfl, rfl, rfl, rfl⟩

/-- C8 (amended): quantity is exactly what callers supply — creation
stores the given (default 1, hence non-negative) value, every mutation
other than `update_quantity` leaves it unchanged, and `update_quantity`
stores its argument with *no validation*; consequently quantity stays
non-negative only when every supplied value is non-negative. -/
theorem quantity_no_validation :
    (∀ (m : Manager) (master : String) (sid : Int) (file : FPath)
       (arch : String) (resp : List (String × List String)) (q : Int),
       dictContains m.index (Project.make master sid file arch resp q).get_project_id
         = false →
       ((m.create_project master sid file arch resp q).1.get_project
         (Project.make master sid file arch resp q).get_project_id).map
           Project.quantity = some q) ∧
    (∀ (p : Project) (ts : String) (q : Int),
       (p.update_quantity ts q).quantity = q) ∧
    (∀ (op : POp) (s : Finset FPath × Project),
       (stepOp op s).2.quantity = (quantityArg op).getD s.2.quantity) ∧
    (∀ (ops : List POp) (s : Finset FPath × Project),
       0 ≤ s.2.quantity → (∀ q ∈ ops.filterMap quantityArg, 0 ≤ q) →
       0 ≤ (runOps ops s).2.quantity) := by
  refine ⟨?_, ?_, stepOp_quantity, ?_⟩
  · intro m master sid file arch resp q hfresh
    unfold Manager.create_project
    dsimp only
    rw [if_neg (by rw [hfresh]; exact Bool.false_ne_true)]
    dsimp only
    unfold Manager.get_project
    rw [dictLookup_dictInsert_self]
    dsimp only
    rw [dictLookup_dictInsert_self]
    rfl
  · intro p ts q
    rfl
  · intro ops
    induction ops with
    | nil =>
      intro s h0 hargs
      exact h0
    | cons op rest ih =>
      intro s h0 hargs
      rw [runOps_cons]
      apply ih
      · rw [stepOp_quantity]
        cases hq : quantityArg op with
        | none => simpa using h0
        | some q =>
          simp only [Option.getD_some]
          apply hargs
          simp [List.filterMap_cons, hq]
      · intro q hq2
        apply hargs
        cases hqa : quantityArg op <;>
          simp [List.filterMap_cons, hqa, hq2]

/-- C8 witness: each clause at a concrete input. -/
theorem quantity_no_validation_witness :
    ((mEmpty.create_project "HAM" 2 cubeStl "arch" [] 3).1.get_project
      (Project.make "HAM" 2 cubeStl "arch" [] 3).get_project_id).map
        Project.quantity = some 3 ∧
    (pHAM.update_quantity "t" 5).quantity = 5 ∧
    (stepOp (POp.update_status "t" "x") (fsHAM, pHAM)).2.quantity =
      (quantityArg (POp.update_status "t" "x")).getD pHAM.quantity ∧
    0 ≤ (runOps [POp.update_quantity "t" 7] (fsHAM, pHAM)).2.quantity :=
  ⟨quantity_no_validation.1 mEmpty "HAM" 2 cubeStl "arch" [] 3 (by decide),
   quantity_no_validation.2.1 pHAM "t" 5,
   quantity_no_validation.2.2.1 (POp.update_status "t" "x") (fsHAM, pHAM),
   quantity_no_validation.2.2.2 [POp.update_quantity "t" 7] (fsHAM, pHAM)
     (by decide) (by decide)⟩

/-- C8 counterexample: `update_quantity` accepts a negative value through
the store's own dispatch, so the stored record's quantity becomes `-1`,
refuting "the quantity field ... stays non-negative after every mutation,
including update_quantity". -/
theorem quantity_negative_counterexample :
    ((mHAM.update_project "t" ∅ "HAM_1" "update_quantity"
        (.scalar (.int (-1)))).2.1.get_project "HAM_1").map Project.quantity =
      some (-1) ∧
    ¬ (0 : Int) ≤ -1 := by
  refine ⟨?_, ?_⟩ <;> decide

def cube3Stl : FPath := ⟨"d", "cube3", ".stl"⟩

def cube4Stl : FPath := ⟨"d", "cube4", ".stl"⟩

def c5files : List FPath := [cube2Stl, cube3Stl, cube4Stl]

def fsC5 : Finset FPath := {cubeStl, cube2Stl, cube3Stl, cube4Stl}

/-- C5 witness: three versioned updates on a fresh record leave 3 archived
files and `file_version = 4`. -/
theorem update_file_versioning_sequence_witness :
    (okProj (updateFileSeq "t" fsC5 pHAM c5files) pHAM)._file_version =
      c5files.length + 1 ∧
    ((okFS (updateFileSeq "t" fsC5 pHAM c5files) fsC5).filter
      (fun g => g.dir = pHAM.archive_directory)).card = c5files.length :=
  ⟨(update_file_versioning_sequence "t" fsC5 pHAM c5files
      (okFS (updateFileSeq "t" fsC5 pHAM c5files) fsC5)
      (okProj (updateFileSeq "t" fsC5 pHAM c5files) pHAM)
      (by decide) (by decide) (by decide) rfl).1,
   (update_file_versioning_sequence "t" fsC5 pHAM c5files
      (okFS (updateFileSeq "t" fsC5 pHAM c5files) fsC5)
      (okProj (updateFileSeq "t" fsC5 pHAM c5files) pHAM)
      (by decide) (by decide) (by decide) rfl).2.2⟩

/-- C7 witness: on a fresh record, an add / remove / add run issues ids
1 then 2 — the removed id 1 is not reissued. -/
theorem comment_ids_never_reused_witness :
    issuedIds [POp.add_comment "t1" "a", POp.remove_comment "t2" 1,
      POp.add_comment "t3" "b"] (∅, pC3) =
      (List.range (numAdds [POp.add_comment "t1" "a",
        POp.remove_comment "t2" 1, POp.add_comment "t3" "b"])).map
        (fun i : Nat => (i : Int) + 1) :=
  (comment_ids_never_reused [POp.add_comment "t1" "a",
    POp.remove_comment "t2" 1, POp.add_comment "t3" "b"] ∅ pC3).2.2 (by decide)
